import Mathlib

/-!
Verification development for the chunk-oriented scan pipeline in `src/scan.c`
(pg_strom). The C code is shallowly embedded: each `pgstrom_*` definition below
mirrors the control flow of the C function of the same name. Machine integers
(`int64` rowids) are modelled as `Int`; PostgreSQL heap/index scans over the
column stores are modelled as pure functions over a list of stored arrays
sorted by their starting rowid (the btree key).
-/

namespace PgStrom

/-- One tuple of a column store: `cs_rowid` (the starting row identifier,
the btree key) together with the array of values stored for the rows
`[start, start + elems.length)`.  An element `none` is a NULL element,
recorded in the PostgreSQL array's null bitmap. -/
structure CsArray where
  start : Int
  elems : List (Option Int)
deriving DecidableEq, Repr

/-- The per-column single-row cache of `PgStromExecState`:
`cs_cur_values` (the currently materialized array, `none` when NULL) and the
position of the column-store index scan `cs_scan[csidx]`.  The fields
`cs_cur_rowid_min` / `cs_cur_rowid_max` of the C struct are derived data: every
assignment in `scan.c` sets `min = cur_rowid` and
`max = cur_rowid + ARR_DIMS(cur_values)[0]`, so they are represented by
`cur.start` and `cur.start + cur.elems.length`.  `cursor` is the index into
the sorted store of the next tuple an `index_getnext(..., ForwardScanDirection)`
call would return. -/
structure ColCacheState where
  cur : Option CsArray
  cursor : Nat
deriving DecidableEq, Repr

/-- PostgreSQL `array_ref` on a one-dimensional array with lower bound 0
(the loader asserts `ARR_LBOUND(cur_array)[0] == 0`): a subscript outside
`[0, nitems)` yields NULL, otherwise the element is fetched honoring the
array's null bitmap.  Returns `(value, is_null)`; the Datum accompanying a
NULL result is 0. -/
def array_ref (a : CsArray) (i : Int) : Int × Bool :=
  if 0 ≤ i ∧ i < (a.elems.length : Int) then
    match a.elems.getD i.toNat none with
    | some v => (v, false)
    | none => (0, true)
  else (0, true)

/-- Result of `index_rescan(.., BTLessEqualStrategyNumber rowid)` followed by
`index_getnext(.., BackwardScanDirection)`: the stored tuple with the greatest
key `start ≤ rowid`, i.e. the last such tuple of the (sorted) store. -/
def backseek (rowid : Int) : List CsArray → Option CsArray
  | [] => none
  | a :: rest =>
    if a.start ≤ rowid then
      match backseek rowid rest with
      | some b => some b
      | none => some a
    else backseek rowid rest

/-- The forward-probe loop of `pgstrom_scan_column_store` (the `while
(count-- > 0)` loop): fetch up to `count` tuples forward from `cursor`; a
fetched tuple `t` is a hit when `rowid >= t.start && rowid <= t.start +
ARR_DIMS[0]` (note the inclusive upper bound).  Returns the hit array (if
any), the cursor after the loop, and the number of `index_getnext` calls. -/
def probeLoop (store : List CsArray) (rowid : Int) : Nat → Nat → Option CsArray × Nat × Nat
  | cursor, 0 => (none, cursor, 0)
  | cursor, count + 1 =>
    match store.get? cursor with
    | none => (none, cursor, 1)
    | some t =>
      if t.start ≤ rowid ∧ rowid ≤ t.start + (t.elems.length : Int) then
        (some t, cursor + 1, 1)
      else
        let r := probeLoop store rowid (cursor + 1) count
        (r.1, r.2.1, r.2.2 + 1)

/-- Which code path of `pgstrom_scan_column_store` produced the result.
`probeHit strict` records whether the probed hit was strict
(`rowid < t.start + nitems`) or exactly on the inclusive boundary. -/
inductive LPath where
  | cachedHit
  | probeHit (strict : Bool)
  | seekHit
  | notFound
deriving DecidableEq, Repr

/-- Result of one `pgstrom_scan_column_store` call: the `(value, is_null)`
pair stored into the slot, the updated per-column cache state, and the index
traffic it generated (`seeks` counts `index_rescan` calls, `fetches` counts
`index_getnext` calls). -/
structure LookupOut where
  value : Int
  isnull : Bool
  state : ColCacheState
  seeks : Nat
  fetches : Nat
  path : LPath
deriving DecidableEq, Repr

/-- The full-seek fallback of `pgstrom_scan_column_store` (lines 473-525):
the cache is discarded, the cursor is repositioned with an upper-bound seek
(`<= rowid`) and one backward fetch; if a tuple is found it becomes the new
cache and the cursor is re-seeked forward past its end (`> max`), otherwise
the column reports NULL for this row (the C code leaves the cursor wherever
the backward scan ended; that position is never read before the next rescan,
so it is modelled as unchanged). -/
def fullSeek (store : List CsArray) (rowid : Int) (cursor0 fetches0 : Nat) : LookupOut :=
  match backseek rowid store with
  | none => ⟨0, true, ⟨none, cursor0⟩, 1, fetches0 + 1, .notFound⟩
  | some b =>
    let vr := array_ref b (rowid - b.start)
    ⟨vr.1, vr.2,
     ⟨some b, store.findIdx (fun a => decide (b.start + (b.elems.length : Int) < a.start))⟩,
     2, fetches0 + 1, .seekHit⟩

/-- `pgstrom_scan_column_store` (scan.c lines 400-538) for one column.  The
cache hit test mirrors the C condition `!cs_cur_values || rowid < min ||
rowid > max` (hence `rowid = max` is a hit); on a miss the forward-probe
heuristic is attempted when `rowid > max && rowid < max + 2*(max - min)`,
and otherwise (or when the probe finds nothing) the full-seek fallback runs. -/
def pgstrom_scan_column_store (store : List CsArray) (st : ColCacheState) (rowid : Int) :
    LookupOut :=
  match st.cur with
  | none => fullSeek store rowid st.cursor 0
  | some c =>
    if c.start ≤ rowid ∧ rowid ≤ c.start + (c.elems.length : Int) then
      let vr := array_ref c (rowid - c.start)
      ⟨vr.1, vr.2, st, 0, 0, .cachedHit⟩
    else if c.start + (c.elems.length : Int) < rowid ∧
            rowid < c.start + (c.elems.length : Int) +
              2 * ((c.start + (c.elems.length : Int)) - c.start) then
      match probeLoop store rowid st.cursor 2 with
      | (some t, cur', f) =>
        let vr := array_ref t (rowid - t.start)
        ⟨vr.1, vr.2, ⟨some t, cur'⟩, 0, f,
         .probeHit (decide (rowid < t.start + (t.elems.length : Int)))⟩
      | (none, cur', f) => fullSeek store rowid cur' f
    else fullSeek store rowid st.cursor 0

/-- The full-seek fallback path serving a lookup directly (the heuristic
skipped), used to compare the two access paths of
`pgstrom_scan_column_store`. -/
def lookupViaFullSeek (store : List CsArray) (st : ColCacheState) (rowid : Int) : LookupOut :=
  fullSeek store rowid st.cursor 0

/-- The column stores are btree-ordered and arrays cover disjoint rowid
ranges: each array ends no later than the next one starts. -/
def StoreWF (store : List CsArray) : Prop :=
  List.Pairwise (fun a b => a.start + (a.elems.length : Int) ≤ b.start) store

instance (store : List CsArray) : Decidable (StoreWF store) := by
  unfold StoreWF; infer_instance

/-! ### Eager bulk loading (`pgstrom_load_column_store`) -/

/-- The values standing in the data area of a PostgreSQL array: NULL elements
are not stored, the non-null element values are packed densely. -/
def packedVals (a : CsArray) : List Int :=
  a.elems.filterMap id

/-- `ARR_NULLBITMAP`: absent when the array holds no NULL element; otherwise
one bit per element, a *set* bit meaning the element is NOT null (the
PostgreSQL convention). -/
def arrNullbitmap (a : CsArray) : Option (List Bool) :=
  if a.elems.all (fun e => e.isSome) then none
  else some (a.elems.map (fun e => e.isSome))

/-- Pad `xs` with zeros up to length `n`.  Models the loader's
`memcpy(dst, ARR_DATA_PTR(cur_array), nitems * attlen)`: when the array holds
NULL elements its data area is shorter than `nitems` elements and the copied
trailing bytes are unspecified heap bytes; the model reads them as 0 (no
theorem below depends on those positions). -/
def padTo (n : Nat) (xs : List Int) : List Int :=
  xs.take n ++ List.replicate (n - xs.length) 0

/-- Overwrite `l` with `xs` starting at offset `off`, keeping the length of
`l` (a `memcpy` into the middle of a fixed-size chunk buffer). -/
def writeVals (l : List Int) (off : Nat) (xs : List Int) : List Int :=
  l.take off ++ (xs.take (l.length - off)) ++ l.drop (off + xs.length)

/-- Same as `writeVals`, for the null-bitmap buffer.  The source copies the
bitmap at byte granularity (`(nitems + 7) / 8` bytes); array offsets within a
chunk are asserted to be multiples of `BITS_PER_BYTE`, and trailing pad bits
of a PostgreSQL array null bitmap are zero, so bit-granular copying of the
`nitems` bits is faithful. -/
def writeBits (l : List Bool) (off : Nat) (xs : List Bool) : List Bool :=
  l.take off ++ (xs.take (l.length - off)) ++ l.drop (off + xs.length)

/-- The chunk-side buffers of one eagerly loaded column:
`chunk->cs_values[csidx]` (dense, one slot per row of the chunk) and
`chunk->cs_nulls[csidx]` (`none` when never allocated).  The *reader*
(`pgstrom_scan_chunk_buffer`) interprets a set bit of `nulls` as "this row is
NULL". -/
structure EagerCol where
  values : List Int
  nulls : Option (List Bool)
deriving DecidableEq, Repr

/-- Merging one fetched column-store tuple into the chunk buffers (the body
of the `while (index_getnext(...))` loop of `pgstrom_load_column_store`):
the array data is memcpy-ed at `offset = cur_rowid - chunk->rowid`, and when
the array carries a null bitmap, the chunk null bitmap is allocated (zeroed)
on demand and the array's bitmap bytes are memcpy-ed into it unchanged. -/
def mergeArray (chunkRowid : Int) (col : EagerCol) (a : CsArray) : EagerCol :=
  let off := (a.start - chunkRowid).toNat
  let vals := writeVals col.values off (padTo a.elems.length (packedVals a))
  let nulls :=
    match arrNullbitmap a with
    | none => col.nulls
    | some bm =>
      some (writeBits (col.nulls.getD (List.replicate col.values.length false)) off bm)
  ⟨vals, nulls⟩

/-- `pgstrom_load_column_store` (scan.c lines 231-332): a ranged index scan
fetches every stored array with `chunk->rowid <= start < chunk->rowid +
PGSTROM_CHUNK_SIZE` (in ascending key order) into a zero-initialized dense
buffer; if the scan finds no tuple at all, the chunk null bitmap is
`memset(-1)` so every row of the chunk reads as NULL. -/
def pgstrom_load_column_store (store : List CsArray) (chunkRowid : Int) (chunkSize : Nat) :
    EagerCol :=
  let hits := store.filter
    (fun a => decide (chunkRowid ≤ a.start) && decide (a.start < chunkRowid + (chunkSize : Int)))
  if hits.isEmpty then
    ⟨List.replicate chunkSize 0, some (List.replicate chunkSize true)⟩
  else
    hits.foldl (mergeArray chunkRowid) ⟨List.replicate chunkSize 0, none⟩

/-- Reading row `index` of an eagerly loaded column in
`pgstrom_scan_chunk_buffer` (scan.c lines 576-594): the row is non-null when
the chunk null bitmap was never allocated or its bit is clear, in which case
the value is fetched from the dense buffer; otherwise `(0, is_null)`. -/
def chunkReadCol (col : EagerCol) (index : Nat) : Int × Bool :=
  match col.nulls with
  | none => (col.values.getD index 0, false)
  | some bm =>
    if bm.getD index false then (0, true)
    else (col.values.getD index 0, false)

/-! ### RelationSet open/close (`pgstrom_open_relation_set`,
`pgstrom_close_relation_set`) -/

/-- A handle held by a `RelationSet`: the rowid-map table, its index, and per
base-table attribute position the column store table and its index. -/
inductive Handle where
  | rowidRel
  | rowidIdx
  | csRel (i : Nat)
  | csIdx (i : Nat)
deriving DecidableEq, Repr

/-- Handles opened for base-table attribute `i` by the open loop (scan.c
lines 102-132): nothing when the attribute is dropped, otherwise the column
store table followed (when `with_index`) by its index. -/
def perColOpen (dropped : List Bool) (withIndex : Bool) (i : Nat) : List Handle :=
  if dropped.getD i false then []
  else [Handle.csRel i] ++ (if withIndex then [Handle.csIdx i] else [])

/-- Handles released for attribute `i` by the close loop (scan.c lines
153-159): `cs_rel[i]` when non-NULL (the attribute is not dropped), then
`cs_idx[i]` when non-NULL (not dropped and opened `with_index`). -/
def perColClose (dropped : List Bool) (withIndex : Bool) (i : Nat) : List Handle :=
  (if dropped.getD i false then [] else [Handle.csRel i]) ++
  (if dropped.getD i false ∨ withIndex = false then [] else [Handle.csIdx i])

/-- The order in which `pgstrom_open_relation_set` acquires handles: the
rowid table, its index when `with_index`, then the per-column handles for
attribute positions `0, 1, ..., nattrs - 1` in ascending order. -/
def openOrder (nattrs : Nat) (dropped : List Bool) (withIndex : Bool) : List Handle :=
  [Handle.rowidRel] ++ (if withIndex then [Handle.rowidIdx] else []) ++
  (List.range nattrs).flatMap (perColOpen dropped withIndex)

/-- The order in which `pgstrom_close_relation_set` (scan.c lines 144-163)
releases handles: the rowid table, its index when held, then for
`i = 0, ..., nattrs - 1` in ascending order `cs_rel[i]` and `cs_idx[i]`
whenever non-NULL. -/
def closeOrder (nattrs : Nat) (dropped : List Bool) (withIndex : Bool) : List Handle :=
  [Handle.rowidRel] ++ (if withIndex then [Handle.rowidIdx] else []) ++
  (List.range nattrs).flatMap (perColClose dropped withIndex)

/-! ### The scan session (`PgStromExecState`) and its driver
(`pgstrom_load_chunk_buffer`, `pgstrom_scan_chunk_buffer`,
`pgstrom_iterate_foreign_scan`) -/

/-- One tuple of the rowid map table: the chunk-aligned base rowid and the
validity bitmap (`VarBit`, one bit per row of the chunk; a set bit means the
row is live). -/
structure RowidTuple where
  rowid : Int
  rowmap : List Bool
deriving DecidableEq, Repr

/-- `PgStromChunkBuf`: the base rowid, the copied validity bitmap, and per
column optionally the eagerly loaded buffers (`cs_values[csidx]` is NULL for
a column that was not bulk-loaded). -/
structure ChunkBuf where
  rowid : Int
  rowmap : List Bool
  cols : List (Option EagerCol)
deriving DecidableEq, Repr

/-- The storage side of a scan session: the configured chunk size, the
number of attributes of the rowid relation's tuple descriptor (the source,
scan.c line 359, sizes `chunk->nattrs` from it), the
`pgstrom_max_async_chunks` GUC, the rowid map table contents, and the
per-column store contents. -/
structure Env where
  chunkSize : Nat
  rowidNatts : Nat
  maxAsyncChunks : Nat
  riStore : List RowidTuple
  csStores : List (List CsArray)
deriving DecidableEq, Repr

/-- `PgStromExecState`: planner parameters, the position of the sequential
heap scan on the rowid map, per-column lazy cache states, the three chunk
lists, and the iteration cursor (`curr_chunk` is the position in the ready
list, `curr_index` the bit offset in the current chunk). -/
structure SessionState where
  predictable : Int
  requiredCols : List Nat
  clauseCols : List Nat
  riPos : Nat
  colStates : List ColCacheState
  pending : List ChunkBuf
  executing : List ChunkBuf
  ready : List ChunkBuf
  currChunk : Option Nat
  currIndex : Nat
deriving DecidableEq, Repr

/-- The state built by `pgstrom_init_exec_state` / `pgstrom_begin_foreign_scan`:
empty chunk lists, no current chunk, heap scan at the start, all per-column
caches empty. -/
def initState (pred : Int) (req clause : List Nat) (ncols : Nat) : SessionState :=
  ⟨pred, req, clause, 0, List.replicate ncols ⟨none, 0⟩, [], [], [], none, 0⟩

/-- Result of `pgstrom_load_chunk_buffer`: the number of chunks loaded, the
updated state, and the number of storage accesses performed (heap fetches on
the rowid map plus column-store index scans). -/
structure LoadOut where
  loaded : Nat
  state : SessionState
  accesses : Nat
deriving DecidableEq, Repr

/-- The column buffers of a freshly built chunk: when the query is not
predictable (`sestate->predictable == 0`) every clause column is eagerly
bulk-loaded through `pgstrom_load_column_store`; otherwise no column buffer
is materialized.  Sized by the rowid relation's attribute count, exactly as
`chunk->nattrs = tupdesc->natts` does in the source. -/
def buildCols (env : Env) (s : SessionState) (tupRowid : Int) : List (Option EagerCol) :=
  (List.range env.rowidNatts).map (fun csidx =>
    if s.predictable = 0 ∧ (csidx + 1) ∈ s.clauseCols then
      some (pgstrom_load_column_store (env.csStores.getD csidx []) tupRowid env.chunkSize)
    else none)

/-- Number of column-store index scans `pgstrom_load_chunk_buffer` starts for
one chunk. -/
def buildColsAccesses (env : Env) (s : SessionState) : Nat :=
  (List.range env.rowidNatts).countP
    (fun csidx => decide (s.predictable = 0 ∧ (csidx + 1) ∈ s.clauseCols))

/-- `pgstrom_load_chunk_buffer` (scan.c lines 334-398): up to `num_chunks`
times, fetch the next rowid-map tuple (stopping at end of heap), build a
chunk from it — eagerly bulk-loading clause columns when the query is not
predictable — and append the chunk to the *ready* list (both branches of the
source append to `chunk_ready_list`; the pending and executing lists are
never written). -/
def pgstrom_load_chunk_buffer (env : Env) (s : SessionState) : Nat → LoadOut
  | 0 => ⟨0, s, 0⟩
  | b + 1 =>
    match env.riStore.get? s.riPos with
    | none => ⟨0, s, 1⟩
    | some tup =>
      let chunk : ChunkBuf := ⟨tup.rowid, tup.rowmap, buildCols env s tup.rowid⟩
      let s' := { s with riPos := s.riPos + 1, ready := s.ready ++ [chunk] }
      let rest := pgstrom_load_chunk_buffer env s' b
      ⟨rest.loaded + 1, rest.state, rest.accesses + 1 + buildColsAccesses env s⟩

/-- A row as produced by `pgstrom_scan_chunk_buffer`: the row identifier
`chunk->rowid + index` it was assembled for and the per-column
`(value, is_null)` pairs of the virtual tuple slot. -/
structure Row where
  rowid : Int
  cols : List (Int × Bool)
deriving DecidableEq, Repr

/-- Assembling one column of an emitted row (scan.c lines 559-601): a column
whose ordinal is not in `required_cols` is returned as `(0, null)` without
touching storage; a column with an eagerly loaded buffer is read from the
chunk; otherwise `pgstrom_scan_column_store` is called with the current
rowid.  Returns the slot entry, the updated per-column cache state, and the
index traffic generated. -/
def assembleColumn (csStores : List (List CsArray)) (required : List Nat) (chunk : ChunkBuf)
    (bitIdx : Nat) (rowid : Int) (csidx : Nat) (st : ColCacheState) :
    (Int × Bool) × ColCacheState × Nat :=
  if (csidx + 1) ∈ required then
    match chunk.cols.getD csidx none with
    | some ec => (chunkReadCol ec bitIdx, st, 0)
    | none =>
      let r := pgstrom_scan_column_store (csStores.getD csidx []) st rowid
      ((r.value, r.isnull), r.state, r.seeks + r.fetches)
  else ((0, true), st, 0)

/-- The `for (csidx=0; csidx < chunk->nattrs; csidx++)` column loop of
`pgstrom_scan_chunk_buffer`, threading the per-column cache states. -/
def assembleCols (csStores : List (List CsArray)) (required : List Nat) (chunk : ChunkBuf)
    (bitIdx : Nat) (rowid : Int) :
    Nat → Nat → List ColCacheState → List (Int × Bool) × List ColCacheState × Nat
  | _, 0, states => ([], states, 0)
  | csidx, n + 1, states =>
    let r := assembleColumn csStores required chunk bitIdx rowid csidx
      (states.getD csidx ⟨none, 0⟩)
    let rest := assembleCols csStores required chunk bitIdx rowid (csidx + 1) n
      (states.set csidx r.2.1)
    (r.1 :: rest.1, rest.2.1, r.2.2 + rest.2.2)

/-- The bitmap walk of `pgstrom_scan_chunk_buffer`: the absolute index of the
first set bit of `bits` (a suffix of the rowmap starting at absolute index
`idx`), skipping clear bits with no output. -/
def findLiveBit : List Bool → Nat → Option Nat
  | [], _ => none
  | b :: rest, idx => if b then some idx else findLiveBit rest (idx + 1)

/-- `pgstrom_scan_chunk_buffer` (scan.c lines 540-606): scan the validity
bitmap from `curr_index` forward; the first set bit yields a row with
`rowid = chunk->rowid + index` whose columns are assembled per
`assembleColumn`; when no set bit remains, `none` signals that the next
chunk is needed.  Note the source returns without storing the advanced bit
position anywhere: `sestate->curr_index` is left unchanged. -/
def pgstrom_scan_chunk_buffer (csStores : List (List CsArray)) (required : List Nat)
    (chunk : ChunkBuf) (currIndex : Nat) (states : List ColCacheState) :
    Option (Row × List ColCacheState × Nat) :=
  match findLiveBit (chunk.rowmap.drop currIndex) currIndex with
  | none => none
  | some i =>
    let rowid := chunk.rowid + (i : Int)
    let r := assembleCols csStores required chunk i rowid 0 chunk.cols.length states
    some (⟨rowid, r.1⟩, r.2.1, r.2.2)

/-- Result of one `pgstrom_iterate_foreign_scan` call: the emitted row
(`none` is the cleared slot, i.e. end of scan), the updated state, the
number of storage accesses made during the call, and whether the call ran
into the unimplemented wait loop of the source (which would spin forever
when the executing or pending list is non-empty). -/
structure IterOut where
  row : Option Row
  state : SessionState
  accesses : Nat
  stuck : Bool
deriving DecidableEq, Repr

/-- The `retry:` loop of `pgstrom_iterate_foreign_scan` (scan.c lines
826-870): scan the current chunk; when it is exhausted, top up the pipeline
with `pgstrom_max_async_chunks - list_length(chunk_exec_list)` chunks, then
advance to the next ready chunk (resetting the bit cursor) and retry, or —
when no next chunk exists and both the executing and pending lists are empty
— return the cleared slot.  With a non-empty executing or pending list the
source would spin in an empty `while` body (the kernel-synchronization calls
are not implemented); that case is reported as `stuck`.  The fuel argument
is an upper bound on the number of chunk advances, which the caller sizes
so that it cannot run out. -/
def retryLoop (env : Env) : Nat → SessionState → Nat → IterOut
  | 0, s, acc => ⟨none, s, acc, true⟩
  | fuel + 1, s, acc =>
    let ci := s.currChunk.getD 0
    let chunk := s.ready.getD ci ⟨0, [], []⟩
    match pgstrom_scan_chunk_buffer env.csStores s.requiredCols chunk s.currIndex s.colStates with
    | some (row, states', a) =>
      ⟨some row, { s with colStates := states' }, acc + a, false⟩
    | none =>
      let ld := pgstrom_load_chunk_buffer env s (env.maxAsyncChunks - s.executing.length)
      let s1 := ld.state
      if ci + 1 < s1.ready.length then
        retryLoop env fuel { s1 with currChunk := some (ci + 1), currIndex := 0 }
          (acc + ld.accesses)
      else if s1.executing = [] ∧ s1.pending = [] then
        ⟨none, s1, acc + ld.accesses, false⟩
      else ⟨none, s1, acc + ld.accesses, true⟩

/-- `pgstrom_iterate_foreign_scan` (scan.c lines 801-872): clear the slot;
a `predictable < 0` session (result statically known empty) returns the
cleared slot immediately; on the first call fill the pipeline and position
on the head of the ready list (returning the cleared slot when nothing could
be loaded); then run the retry loop. -/
def pgstrom_iterate_foreign_scan (env : Env) (s : SessionState) : IterOut :=
  if s.predictable < 0 then ⟨none, s, 0, false⟩
  else
    match s.currChunk with
    | none =>
      let ld := pgstrom_load_chunk_buffer env s (env.maxAsyncChunks - s.executing.length)
      if ld.loaded = 0 then ⟨none, ld.state, ld.accesses, false⟩
      else
        let s1 := { ld.state with currChunk := some 0, currIndex := 0 }
        retryLoop env (env.riStore.length + s1.ready.length + 1) s1 ld.accesses
    | some _ => retryLoop env (env.riStore.length + s.ready.length + 1) s 0

/-- The session states reachable in a scan: the state `pgstrom_begin_foreign_scan`
builds, and anything `pgstrom_iterate_foreign_scan` (the only function that
mutates the chunk lists) produces from a reachable state. -/
inductive Reachable (env : Env) : SessionState → Prop
  | begin_scan (pred : Int) (req clause : List Nat) (ncols : Nat) :
      Reachable env (initState pred req clause ncols)
  | next_call {s : SessionState} :
      Reachable env s → Reachable env (pgstrom_iterate_foreign_scan env s).state

/-! ### Helper lemmas -/

lemma getD_replicate_of_lt {α : Type} (a d : α) :
    ∀ (n i : Nat), i < n → (List.replicate n a).getD i d = a := by
  intro n
  induction n with
  | zero => intro i hi; omega
  | succ m ih =>
    intro i hi
    cases i with
    | zero => rfl
    | succ j => exact ih j (by omega)

lemma backseek_eq_none (rowid : Int) :
    ∀ l : List CsArray, (∀ b ∈ l, ¬ b.start ≤ rowid) → backseek rowid l = none := by
  intro l
  induction l with
  | nil => intro _; rfl
  | cons a rest ih =>
    intro h
    simp only [backseek]
    rw [if_neg (h a (List.mem_cons_self a rest))]
    exact ih (fun b hb => h b (List.mem_cons_of_mem a hb))

lemma backseek_last_cover (rowid : Int) :
    ∀ store : List CsArray, StoreWF store → ∀ t ∈ store,
      t.start ≤ rowid → rowid < t.start + (t.elems.length : Int) →
      backseek rowid store = some t := by
  intro store
  induction store with
  | nil => intro _ t ht; cases ht
  | cons a rest ih =>
    intro hwf t ht h1 h2
    rw [StoreWF, List.pairwise_cons] at hwf
    obtain ⟨hfirst, hrest⟩ := hwf
    rcases List.mem_cons.mp ht with rfl | hmem
    · simp only [backseek]
      rw [if_pos h1, backseek_eq_none rowid rest (fun b hb => by have := hfirst b hb; omega)]
    · have ha : a.start ≤ rowid := by
        have h3 := hfirst t hmem
        have h4 : (0 : Int) ≤ (a.elems.length : Int) := Int.ofNat_nonneg _
        omega
      simp only [backseek]
      rw [if_pos ha, ih hrest t hmem h1 h2]

lemma probeLoop_some (store : List CsArray) (rowid : Int) :
    ∀ (count cursor : Nat) {t : CsArray} {c f : Nat},
      probeLoop store rowid cursor count = (some t, c, f) →
      t ∈ store ∧ t.start ≤ rowid := by
  intro count
  induction count with
  | zero => intro cursor t c f h; simp [probeLoop] at h
  | succ n ih =>
    intro cursor t c f h
    simp only [probeLoop] at h
    split at h
    · simp at h
    · rename_i t0 hg
      split at h
      · rename_i hcnd
        simp only [Prod.mk.injEq] at h
        obtain ⟨h1, -, -⟩ := h
        obtain rfl : t0 = t := by injection h1
        exact ⟨List.get?_mem hg, hcnd.1⟩
      · rcases hr : probeLoop store rowid (cursor + 1) n with ⟨r1, r2, r3⟩
        rw [hr] at h
        simp only [Prod.mk.injEq] at h
        obtain ⟨h1, h2, h3⟩ := h
        have hnext : probeLoop store rowid (cursor + 1) n = (some t, c, r3) := by
          rw [hr, h1, h2]
        exact ih (cursor + 1) hnext

lemma fullSeek_path_ne_probe (store : List CsArray) (rowid : Int) (c0 f0 : Nat) (b : Bool) :
    (fullSeek store rowid c0 f0).path ≠ .probeHit b := by
  unfold fullSeek
  cases backseek rowid store <;> simp

lemma load_keeps_pending_executing (env : Env) :
    ∀ (b : Nat) (s : SessionState),
      (pgstrom_load_chunk_buffer env s b).state.pending = s.pending ∧
      (pgstrom_load_chunk_buffer env s b).state.executing = s.executing := by
  intro b
  induction b with
  | zero => intro s; exact ⟨rfl, rfl⟩
  | succ n ih =>
    intro s
    simp only [pgstrom_load_chunk_buffer]
    cases env.riStore.get? s.riPos with
    | none => exact ⟨rfl, rfl⟩
    | some tup => simpa using ih _

lemma retryLoop_keeps_pending_executing (env : Env) :
    ∀ (fuel : Nat) (s : SessionState) (acc : Nat),
      (retryLoop env fuel s acc).state.pending = s.pending ∧
      (retryLoop env fuel s acc).state.executing = s.executing := by
  intro fuel
  induction fuel with
  | zero => intro s acc; exact ⟨rfl, rfl⟩
  | succ n ih =>
    intro s acc
    simp only [retryLoop]
    split
    · exact ⟨rfl, rfl⟩
    · obtain ⟨hp, he⟩ := load_keeps_pending_executing env
        (env.maxAsyncChunks - s.executing.length) s
      split
      · constructor
        · rw [(ih _ _).1]; exact hp
        · rw [(ih _ _).2]; exact he
      · split
        · exact ⟨hp, he⟩
        · exact ⟨hp, he⟩

lemma iterate_keeps_pending_executing (env : Env) (s : SessionState) :
    (pgstrom_iterate_foreign_scan env s).state.pending = s.pending ∧
    (pgstrom_iterate_foreign_scan env s).state.executing = s.executing := by
  simp only [pgstrom_iterate_foreign_scan]
  split
  · exact ⟨rfl, rfl⟩
  · cases s.currChunk with
    | none =>
      obtain ⟨hp, he⟩ := load_keeps_pending_executing env
        (env.maxAsyncChunks - s.executing.length) s
      simp only []
      split
      · exact ⟨hp, he⟩
      · exact ⟨((retryLoop_keeps_pending_executing env _ _ _).1).trans hp,
               ((retryLoop_keeps_pending_executing env _ _ _).2).trans he⟩
    | some k =>
      exact retryLoop_keeps_pending_executing env _ _ _

lemma reachable_pending_executing_empty (env : Env) {s : SessionState}
    (h : Reachable env s) : s.pending = [] ∧ s.executing = [] := by
  induction h with
  | begin_scan => exact ⟨rfl, rfl⟩
  | next_call _ ih =>
    obtain ⟨hp, he⟩ := iterate_keeps_pending_executing env _
    exact ⟨hp.trans ih.1, he.trans ih.2⟩

/-! ### Claim theorems -/

/-- C3: a lookup at a rowid inside the cached array's declared range — the
inclusive upper bound `cs_cur_rowid_max = start + nitems` included — is
treated as a cache hit: `pgstrom_scan_column_store` leaves the per-column
cache state untouched and performs no `index_rescan` and no `index_getnext`
call. -/
theorem C3_boundary_cache_hit (store : List CsArray) (st : ColCacheState) (rowid : Int)
    (c : CsArray) (hc : st.cur = some c) (h1 : c.start ≤ rowid)
    (h2 : rowid ≤ c.start + (c.elems.length : Int)) :
    (pgstrom_scan_column_store store st rowid).state = st ∧
    (pgstrom_scan_column_store store st rowid).seeks = 0 ∧
    (pgstrom_scan_column_store store st rowid).fetches = 0 ∧
    (pgstrom_scan_column_store store st rowid).path = .cachedHit := by
  simp only [pgstrom_scan_column_store, hc]
  rw [if_pos ⟨h1, h2⟩]
  exact ⟨rfl, rfl, rfl, rfl⟩

/-- C3 witness: an array covering rows `[100, 110)` (start 100, 10 elements)
queried at rowid 110 hits the cache without any index traffic. -/
theorem C3_boundary_cache_hit_witness :
    ((⟨some ⟨100, List.replicate 10 (some 4)⟩, 1⟩ : ColCacheState).cur
        = some ⟨100, List.replicate 10 (some 4)⟩ ∧
      (100 : Int) ≤ 110 ∧
      (110 : Int) ≤ 100 + ((List.replicate 10 (some (4 : Int))).length : Int)) ∧
    ((pgstrom_scan_column_store [⟨100, List.replicate 10 (some 4)⟩]
        ⟨some ⟨100, List.replicate 10 (some 4)⟩, 1⟩ 110).state
      = ⟨some ⟨100, List.replicate 10 (some 4)⟩, 1⟩ ∧
     (pgstrom_scan_column_store [⟨100, List.replicate 10 (some 4)⟩]
        ⟨some ⟨100, List.replicate 10 (some 4)⟩, 1⟩ 110).seeks = 0 ∧
     (pgstrom_scan_column_store [⟨100, List.replicate 10 (some 4)⟩]
        ⟨some ⟨100, List.replicate 10 (some 4)⟩, 1⟩ 110).fetches = 0 ∧
     (pgstrom_scan_column_store [⟨100, List.replicate 10 (some 4)⟩]
        ⟨some ⟨100, List.replicate 10 (some 4)⟩, 1⟩ 110).path = .cachedHit) :=
  ⟨⟨rfl, by decide, by decide⟩,
   C3_boundary_cache_hit _ _ _ _ rfl (by decide) (by decide)⟩

/-- C9: a session the planner marked predictable-but-empty
(`sestate->predictable < 0`) returns the cleared slot — end of scan — on the
very first statement of `pgstrom_iterate_foreign_scan`, with zero storage
accesses and the session state untouched. -/
theorem C9_predictable_empty_short_circuit (env : Env) (s : SessionState)
    (h : s.predictable < 0) :
    pgstrom_iterate_foreign_scan env s = ⟨none, s, 0, false⟩ := by
  simp only [pgstrom_iterate_foreign_scan]
  rw [if_pos h]

/-- C9 witness: a concrete predictable-empty session over a non-empty rowid
store still returns end-of-scan immediately with no storage access. -/
theorem C9_predictable_empty_short_circuit_witness :
    ((initState (-1) [1] [] 2) : SessionState).predictable < 0 ∧
    pgstrom_iterate_foreign_scan ⟨16, 2, 3, [⟨0, [true, true]⟩], [[], []]⟩
        (initState (-1) [1] [] 2)
      = ⟨none, initState (-1) [1] [] 2, 0, false⟩ :=
  ⟨by decide,
   C9_predictable_empty_short_circuit ⟨16, 2, 3, [⟨0, [true, true]⟩], [[], []]⟩
     (initState (-1) [1] [] 2) (by decide)⟩

/-- C10: in the per-row column assembly of `pgstrom_scan_chunk_buffer`, a
column whose ordinal `csidx + 1` is not in the planner-supplied
`required_cols` set is stored into the slot as `(value 0, is_null true)`,
without consulting the chunk buffers or the column store and regardless of
their contents. -/
theorem C10_unrequired_column_null (csStores : List (List CsArray)) (required : List Nat)
    (chunk : ChunkBuf) (bitIdx : Nat) (rowid : Int) (csidx : Nat) (st : ColCacheState)
    (h : (csidx + 1) ∉ required) :
    assembleColumn csStores required chunk bitIdx rowid csidx st = ((0, true), st, 0) := by
  simp only [assembleColumn]
  rw [if_neg h]

/-- C10 witness: column ordinal 1 is not required, yet the chunk buffer does
hold a (non-null) value 9 for the row; the slot still gets `(0, null)`. -/
theorem C10_unrequired_column_null_witness :
    (0 + 1) ∉ [2] ∧
    assembleColumn [[⟨0, [some 9]⟩]] [2] ⟨0, [true], [some ⟨[9], none⟩]⟩ 0 0 0 ⟨none, 0⟩
      = ((0, true), ⟨none, 0⟩, 0) :=
  ⟨by decide,
   C10_unrequired_column_null [[⟨0, [some 9]⟩]] [2] ⟨0, [true], [some ⟨[9], none⟩]⟩ 0 0 0
     ⟨none, 0⟩ (by decide)⟩

/-- C6 counterexample: with two non-dropped columns opened with indexes, the
close loop of `pgstrom_close_relation_set` releases the per-column handles
as `cs_rel[0], cs_idx[0], cs_rel[1], cs_idx[1]` — the same ascending order
the open loop acquired them in, which is not the reverse of the open order.
This refutes the claim that per-column handles are released in reverse
order of opening. -/
theorem C6_column_close_not_reverse :
    (List.range 2).flatMap (perColClose [] true)
      ≠ ((List.range 2).flatMap (perColOpen [] true)).reverse := by
  decide

/-- C6 amended: `pgstrom_close_relation_set` releases every handle
`pgstrom_open_relation_set` acquired, in exactly the order they were opened
(rowid table, rowid index, then per non-dropped column the store table
followed by its index, ascending attribute positions) — the same order, not
the reverse. -/
theorem C6_close_releases_all_in_open_order (nattrs : Nat) (dropped : List Bool)
    (withIndex : Bool) :
    closeOrder nattrs dropped withIndex = openOrder nattrs dropped withIndex := by
  have h : ∀ i, perColClose dropped withIndex i = perColOpen dropped withIndex i := by
    intro i
    rw [perColClose, perColOpen]
    by_cases hd : dropped.getD i false = true
    · rw [if_pos hd, if_pos hd, if_pos (Or.inl hd)]
      rfl
    · rw [if_neg hd, if_neg hd]
      cases withIndex
      · rw [if_pos (Or.inr rfl), if_neg (by decide : ¬ (false = true))]
      · rw [if_neg (fun hor => hor.elim hd (by decide)), if_pos rfl]
  have h2 : perColClose dropped withIndex = perColOpen dropped withIndex := funext h
  simp only [closeOrder, openOrder, h2]

/-- C8: in every reachable state of a scan session the pending and executing
lists together never hold more chunks than the configured
`pgstrom_max_async_chunks` bound.  (They in fact stay empty:
`pgstrom_load_chunk_buffer` appends finished chunks directly to the ready
list and nothing ever populates the other two, so the bound holds in every
state, and the loader budget `pgstrom_max_async_chunks -
list_length(chunk_exec_list)` can never admit an excess chunk.) -/
theorem C8_inflight_bounded (env : Env) (s : SessionState) (h : Reachable env s) :
    s.pending.length + s.executing.length ≤ env.maxAsyncChunks := by
  obtain ⟨hp, he⟩ := reachable_pending_executing_empty env h
  simp [hp, he]

/-- C8 witness: the bound holds at the state reached after one
`pgstrom_iterate_foreign_scan` call on a freshly begun session. -/
theorem C8_inflight_bounded_witness :
    (pgstrom_iterate_foreign_scan ⟨8, 2, 2, [⟨0, [true, false]⟩], [[], []]⟩
        (initState 1 [1] [] 2)).state.pending.length +
      (pgstrom_iterate_foreign_scan ⟨8, 2, 2, [⟨0, [true, false]⟩], [[], []]⟩
        (initState 1 [1] [] 2)).state.executing.length
      ≤ (⟨8, 2, 2, [⟨0, [true, false]⟩], [[], []]⟩ : Env).maxAsyncChunks :=
  C8_inflight_bounded _ _ (Reachable.next_call (Reachable.begin_scan 1 [1] [] 2))

/-- C1 (code bug evaluated at the failing input): over a rowid store with one
chunk whose validity bits 0 and 1 are both set, the first
`pgstrom_iterate_foreign_scan` call emits the row for bit 0 — and the second
call emits the *same* row again, because `pgstrom_scan_chunk_buffer` returns
after `ExecStoreVirtualTuple` without ever storing the advanced bit position
back into `sestate->curr_index` (which stays 0, as the third conjunct
checks).  A set bit therefore does not yield exactly one row, and bit 1 is
never reached. -/
theorem C1_same_row_emitted_twice :
    (pgstrom_iterate_foreign_scan ⟨16, 2, 2, [⟨0, [true, true]⟩], [[], []]⟩
        (initState 1 [] [] 2)).row = some ⟨0, [(0, true), (0, true)]⟩ ∧
    (pgstrom_iterate_foreign_scan ⟨16, 2, 2, [⟨0, [true, true]⟩], [[], []]⟩
        (pgstrom_iterate_foreign_scan ⟨16, 2, 2, [⟨0, [true, true]⟩], [[], []]⟩
          (initState 1 [] [] 2)).state).row = some ⟨0, [(0, true), (0, true)]⟩ ∧
    (pgstrom_iterate_foreign_scan ⟨16, 2, 2, [⟨0, [true, true]⟩], [[], []]⟩
        (initState 1 [] [] 2)).state.currIndex = 0 := by
  decide

/-- C7 (code bug evaluated at the failing input): after the first
`pgstrom_iterate_foreign_scan` call on a fresh session over a two-chunk
rowid store, both loaded chunks sit in the ready list while the pending and
executing lists are — and by `reachable_pending_executing_empty` always
remain — empty: chunks enter the ready list directly, never passing through
pending or executing. -/
theorem C7_chunks_enter_ready_directly :
    (pgstrom_iterate_foreign_scan ⟨16, 2, 4, [⟨0, [true]⟩, ⟨16, [false, true]⟩], [[], []]⟩
        (initState 1 [1] [] 2)).state.ready.length = 2 ∧
    (pgstrom_iterate_foreign_scan ⟨16, 2, 4, [⟨0, [true]⟩, ⟨16, [false, true]⟩], [[], []]⟩
        (initState 1 [1] [] 2)).state.pending = [] ∧
    (pgstrom_iterate_foreign_scan ⟨16, 2, 4, [⟨0, [true]⟩, ⟨16, [false, true]⟩], [[], []]⟩
        (initState 1 [1] [] 2)).state.executing = [] := by
  decide

/-- C2 counterexample: store three arrays covering `[100,110)`, `[112,122)`
and `[122,132)`, with the cache holding the first and the index cursor
positioned past it (the state a prior full seek leaves).  At rowid 122 the
forward-probe heuristic fetches the `[112,122)` array and accepts it through
the inclusive boundary test `rowid <= cur_rowid + nitems`, so `array_ref`
reads one past its last element and reports NULL — while the full-seek
fallback path finds the `[122,132)` array and returns its first element,
777 and not-null.  The two access paths disagree on `(value, is_null)`. -/
theorem C2_heuristic_and_full_seek_disagree :
    ((pgstrom_scan_column_store
        [⟨100, List.replicate 10 (some 1)⟩, ⟨112, List.replicate 10 (some 2)⟩,
         ⟨122, some 777 :: List.replicate 9 (some 3)⟩]
        ⟨some ⟨100, List.replicate 10 (some 1)⟩, 1⟩ 122).value,
     (pgstrom_scan_column_store
        [⟨100, List.replicate 10 (some 1)⟩, ⟨112, List.replicate 10 (some 2)⟩,
         ⟨122, some 777 :: List.replicate 9 (some 3)⟩]
        ⟨some ⟨100, List.replicate 10 (some 1)⟩, 1⟩ 122).isnull) = (0, true) ∧
    (pgstrom_scan_column_store
        [⟨100, List.replicate 10 (some 1)⟩, ⟨112, List.replicate 10 (some 2)⟩,
         ⟨122, some 777 :: List.replicate 9 (some 3)⟩]
        ⟨some ⟨100, List.replicate 10 (some 1)⟩, 1⟩ 122).path = .probeHit false ∧
    ((lookupViaFullSeek
        [⟨100, List.replicate 10 (some 1)⟩, ⟨112, List.replicate 10 (some 2)⟩,
         ⟨122, some 777 :: List.replicate 9 (some 3)⟩]
        ⟨some ⟨100, List.replicate 10 (some 1)⟩, 1⟩ 122).value,
     (lookupViaFullSeek
        [⟨100, List.replicate 10 (some 1)⟩, ⟨112, List.replicate 10 (some 2)⟩,
         ⟨122, some 777 :: List.replicate 9 (some 3)⟩]
        ⟨some ⟨100, List.replicate 10 (some 1)⟩, 1⟩ 122).isnull) = (777, false) := by
  decide

/-- C4 (code bug evaluated at the failing input): one stored array at rowid
0 with eight elements whose first element is NULL, so the array carries a
null bitmap (bit set = element NOT null, the PostgreSQL convention).
`pgstrom_load_column_store` memcpys that bitmap unchanged into
`chunk->cs_nulls`, which `pgstrom_scan_chunk_buffer` reads with the
*opposite* convention (bit set = NULL): row 1, whose value is 11, is
reported `(0, NULL)` by the eager chunk read, while the lazy
`pgstrom_scan_column_store` path (whose `array_ref` honors the PostgreSQL
convention) reports `(11, not null)` for the same row over the same stored
data. -/
theorem C4_eager_lazy_null_inversion :
    chunkReadCol
      (pgstrom_load_column_store
        [⟨0, [none, some 11, some 12, some 13, some 14, some 15, some 16, some 17]⟩] 0 16) 1
      = (0, true) ∧
    ((pgstrom_scan_column_store
        [⟨0, [none, some 11, some 12, some 13, some 14, some 15, some 16, some 17]⟩]
        ⟨none, 0⟩ 1).value,
     (pgstrom_scan_column_store
        [⟨0, [none, some 11, some 12, some 13, some 14, some 15, some 16, some 17]⟩]
        ⟨none, 0⟩ 1).isnull) = (11, false) := by
  decide

/-- C5 counterexample: a chunk over rows `[0,16)` whose column store holds a
single array covering only `[0,8)`.  After eager loading, the sub-range
`[8,16)` has no stored rows, yet it is *not* marked null: the chunk null
bitmap is never allocated (`cs_nulls` stays NULL) and row 8 reads back as
`(0, not null)`.  Only a chunk whose whole range is empty gets the
`memset(-1)` all-null marking. -/
theorem C5_partial_gap_not_marked_null :
    (pgstrom_load_column_store [⟨0, List.replicate 8 (some 1)⟩] 0 16).nulls = none ∧
    chunkReadCol (pgstrom_load_column_store [⟨0, List.replicate 8 (some 1)⟩] 0 16) 8
      = (0, false) := by
  decide

/-- C5 amended: when the ranged index scan over
`[rowid, rowid + PGSTROM_CHUNK_SIZE)` finds no stored array at all, loading
continues without error and the whole chunk is marked null — every row of
the chunk reads back as `(0, NULL)` from the eager buffers.  (Sub-ranges of
a *partially* covered chunk are not nulled; see the counterexample.) -/
theorem C5_empty_range_loads_all_null (store : List CsArray) (chunkRowid : Int)
    (chunkSize : Nat) (i : Nat) (hi : i < chunkSize)
    (h : store.filter (fun a => decide (chunkRowid ≤ a.start) &&
          decide (a.start < chunkRowid + (chunkSize : Int))) = []) :
    chunkReadCol (pgstrom_load_column_store store chunkRowid chunkSize) i = (0, true) := by
  simp only [pgstrom_load_column_store, h]
  simp only [List.isEmpty_nil, if_pos]
  simp only [chunkReadCol]
  rw [getD_replicate_of_lt true false chunkSize i hi]
  simp

/-- C5 amended witness: the only stored array starts at rowid 100, outside
the chunk range `[0,8)`; every row of the chunk, row 3 for instance, reads
back NULL. -/
theorem C5_empty_range_loads_all_null_witness :
    (3 < 8 ∧
      ([⟨100, [some 5]⟩] : List CsArray).filter
        (fun a => decide ((0 : Int) ≤ a.start) && decide (a.start < (0 : Int) + (8 : Nat))) = []) ∧
    chunkReadCol (pgstrom_load_column_store [⟨100, [some 5]⟩] 0 8) 3 = (0, true) :=
  ⟨⟨by decide, by decide⟩,
   C5_empty_range_loads_all_null [⟨100, [some 5]⟩] 0 8 3 (by decide) (by decide)⟩

/-- C2 amended: over a well-formed store (btree-sorted, disjoint array
ranges), whenever the forward-probe heuristic serves a lookup with a
*strict* hit — the rowid strictly below the fetched array's end, i.e. an
actually existing element — the heuristic returns exactly the
`(value, is_null)` pair the full-seek fallback would have produced.  The
two paths can only disagree at a rowid equal to an array's inclusive
boundary (the counterexample), where the probe reads one past the array. -/
theorem C2_strict_probe_agrees_with_full_seek (store : List CsArray) (st : ColCacheState)
    (rowid : Int) (hwf : StoreWF store)
    (hpath : (pgstrom_scan_column_store store st rowid).path = .probeHit true) :
    ((pgstrom_scan_column_store store st rowid).value,
     (pgstrom_scan_column_store store st rowid).isnull)
      = ((lookupViaFullSeek store st rowid).value,
         (lookupViaFullSeek store st rowid).isnull) := by
  cases hcur : st.cur with
  | none =>
    simp only [pgstrom_scan_column_store, lookupViaFullSeek, hcur]
  | some c =>
    simp only [pgstrom_scan_column_store, hcur] at hpath ⊢
    by_cases hin : c.start ≤ rowid ∧ rowid ≤ c.start + (c.elems.length : Int)
    · rw [if_pos hin] at hpath
      simp at hpath
    · rw [if_neg hin] at hpath ⊢
      by_cases hh : c.start + (c.elems.length : Int) < rowid ∧
          rowid < c.start + (c.elems.length : Int) +
            2 * ((c.start + (c.elems.length : Int)) - c.start)
      · rw [if_pos hh] at hpath ⊢
        split at hpath
        · rename_i t cur' f heq
          simp only [LPath.probeHit.injEq, decide_eq_true_eq] at hpath
          obtain ⟨hmem, hle⟩ := probeLoop_some store rowid 2 st.cursor heq
          have hback := backseek_last_cover rowid store hwf t hmem hle hpath
          simp only [heq, lookupViaFullSeek, fullSeek, hback]
        · rename_i cur' f heq
          exact absurd hpath (fullSeek_path_ne_probe store rowid cur' f true)
      · rw [if_neg hh] at hpath
        exact absurd hpath (fullSeek_path_ne_probe store rowid st.cursor 0 true)

/-- C2 amended witness: same three-array store as the counterexample, but
queried at rowid 115, strictly inside the probed `[112,122)` array: the
probe and the full seek both return `(2, not null)`. -/
theorem C2_strict_probe_agrees_with_full_seek_witness :
    (StoreWF
        [⟨100, List.replicate 10 (some 1)⟩, ⟨112, List.replicate 10 (some 2)⟩,
         ⟨122, some 777 :: List.replicate 9 (some 3)⟩] ∧
      (pgstrom_scan_column_store
        [⟨100, List.replicate 10 (some 1)⟩, ⟨112, List.replicate 10 (some 2)⟩,
         ⟨122, some 777 :: List.replicate 9 (some 3)⟩]
        ⟨some ⟨100, List.replicate 10 (some 1)⟩, 1⟩ 115).path = .probeHit true) ∧
    ((pgstrom_scan_column_store
        [⟨100, List.replicate 10 (some 1)⟩, ⟨112, List.replicate 10 (some 2)⟩,
         ⟨122, some 777 :: List.replicate 9 (some 3)⟩]
        ⟨some ⟨100, List.replicate 10 (some 1)⟩, 1⟩ 115).value,
     (pgstrom_scan_column_store
        [⟨100, List.replicate 10 (some 1)⟩, ⟨112, List.replicate 10 (some 2)⟩,
         ⟨122, some 777 :: List.replicate 9 (some 3)⟩]
        ⟨some ⟨100, List.replicate 10 (some 1)⟩, 1⟩ 115).isnull)
      = ((lookupViaFullSeek
        [⟨100, List.replicate 10 (some 1)⟩, ⟨112, List.replicate 10 (some 2)⟩,
         ⟨122, some 777 :: List.replicate 9 (some 3)⟩]
        ⟨some ⟨100, List.replicate 10 (some 1)⟩, 1⟩ 115).value,
         (lookupViaFullSeek
        [⟨100, List.replicate 10 (some 1)⟩, ⟨112, List.replicate 10 (some 2)⟩,
         ⟨122, some 777 :: List.replicate 9 (some 3)⟩]
        ⟨some ⟨100, List.replicate 10 (some 1)⟩, 1⟩ 115).isnull) :=
  ⟨⟨by decide, by decide⟩,
   C2_strict_probe_agrees_with_full_seek _ _ 115 (by decide) (by decide)⟩

end PgStrom







